import Mathlib

/-!
Shallow embedding of the Suno generation-and-reconciliation core of the
repository (src/convex/functions.ts and src/convex/schema.ts).

Convex mutations are transactional: a mutation handler is modelled as a pure
function from store state to store state (one atomic transition).  Convex
actions are not transactional: each `ctx.runMutation` inside an action commits
on its own, and a mutation that throws makes the awaited `runMutation` reject,
aborting the rest of the action while earlier commits remain.  The scheduler's
`_scheduled_functions` registry is modelled as a list of tasks with a name and
an optional completion time.  External HTTP responses are inputs to the
embedded functions.
-/

namespace SunoApp

/-- Status enum from schema.ts (`sunoStatus`). -/
inductive SunoStatus where
  | submitted
  | queued
  | streaming
  | complete
  | error
deriving DecidableEq, Repr

/-- Request payload from schema.ts (`sunoGenerateAudioPayload`); `mv` is the
fixed model literal. -/
structure SunoGenerateAudioPayload where
  gpt_description_prompt : Option String
  tags : Option (List String)
  prompt : String
  mv : String
deriving DecidableEq, Repr

/-- Provider clip report from schema.ts (`sunoGeneratedClip`).  The `metadata`
field is `v.any()` in the source and is modelled opaquely as a string. -/
structure SunoGeneratedClip where
  id : String
  video_url : Option String
  audio_url : Option String
  image_large_url : Option String
  image_url : Option String
  is_video_pending : Bool
  major_model_version : String
  model_name : String
  metadata : String
  status : SunoStatus
  title : String
  play_count : Nat
  upvote_count : Nat
  is_public : Bool
  is_liked : Bool
  is_trashed : Bool
  created_at : String
  user_id : String
  display_name : String
  handle : String
  is_handle_updated : Bool
  avatar_image_url : String
deriving DecidableEq, Repr

/-- Response of the external generation endpoint (`SunoGenerateAudioResponse`):
a prompt-level id and a list of clip-shaped objects; the source only reads
each clip's `id`. -/
structure SunoGenerateAudioResponse where
  id : String
  clips : List SunoGeneratedClip
deriving DecidableEq, Repr

/-- Row of the `suno_prompts` table.  `dbId` models the Convex-assigned `_id`. -/
structure PromptRow where
  dbId : Nat
  suno_prompt_id : String
  suno_request_payload : SunoGenerateAudioPayload
deriving DecidableEq, Repr

/-- Row of the `suno_clips` table.  `dbId` models the Convex-assigned `_id`;
`suno_prompt` holds the `_id` of the owning prompt row. -/
structure ClipRow where
  dbId : Nat
  suno_prompt : Nat
  suno_clip_id : String
  status : SunoStatus
  result : Option SunoGeneratedClip
deriving DecidableEq, Repr

/-- The durable store: both tables in insertion order, plus the next fresh
`_id` the persistence layer will assign. -/
structure DB where
  suno_prompts : List PromptRow
  suno_clips : List ClipRow
  nextId : Nat
deriving DecidableEq, Repr

/-- Entry of the `_scheduled_functions` system registry: a task name and a
completion time that is absent while the task is outstanding (the source
tests `!task.completedTime`). -/
structure ScheduledTask where
  name : String
  completedTime : Option Nat
deriving DecidableEq, Repr

/-- Registry name under which a scheduled `pollSunoClips` run appears
(functions.ts line 108). -/
def pollTaskName : String := "functions.js:pollSunoClips"

/-- Registry name under which a scheduled `schedulePollSunoClips` run appears. -/
def schedulePollTaskName : String := "functions.js:schedulePollSunoClips"

/-- The `for (const suno_clip_id of clips)` insertion loop of
`saveSunoClipsToDb` (functions.ts lines 43-49): one `suno_clips` insert per
returned clip id, each in `submitted` status, referencing `promptDbId`. -/
def insertClips (db : DB) (promptDbId : Nat) (clips : List String) : DB :=
  clips.foldl
    (fun d suno_clip_id =>
      { d with
        suno_clips := d.suno_clips ++
          [⟨d.nextId, promptDbId, suno_clip_id, SunoStatus.submitted, none⟩],
        nextId := d.nextId + 1 })
    db

/-- `saveSunoClipsToDb` (functions.ts lines 32-52): one internal mutation, so
one atomic transition.  Inserts the prompt row, then one clip row per clip id,
then schedules `schedulePollSunoClips` to run after 0 ms. -/
def saveSunoClipsToDb (db : DB) (tasks : List ScheduledTask)
    (args : SunoGenerateAudioPayload) (promptId : String)
    (clips : List String) : DB × List ScheduledTask :=
  let promptDbId := db.nextId
  let db1 : DB :=
    { db with
      suno_prompts := db.suno_prompts ++ [⟨promptDbId, promptId, args⟩],
      nextId := db.nextId + 1 }
  let db2 := insertClips db1 promptDbId clips
  (db2, tasks ++ [⟨schedulePollTaskName, none⟩])

/-- `generateSunoAudio` (functions.ts lines 14-30): posts the payload to the
generation endpoint and runs `saveSunoClipsToDb` with the response's prompt id
and the ids of the response's clips.  The parsed response `json` is an input
here. -/
def generateSunoAudio (db : DB) (tasks : List ScheduledTask)
    (args : SunoGenerateAudioPayload)
    (json : SunoGenerateAudioResponse) : DB × List ScheduledTask :=
  saveSunoClipsToDb db tasks args json.id
    (json.clips.map (fun clip => clip.id))

/-- `getSunoClipIdsToPoll` (functions.ts lines 54-69): clips whose status is
neither `complete` nor `error`, first 10 in table order, projected to their
external ids. -/
def getSunoClipIdsToPoll (db : DB) : List String :=
  let objs :=
    (db.suno_clips.filter
      (fun c => !(c.status == SunoStatus.complete) &&
                !(c.status == SunoStatus.error))).take 10
  objs.map (fun obj => obj.suno_clip_id)

/-- `updateSunoClipStatus` (functions.ts lines 71-90): find the first clip row
whose `suno_clip_id` equals `clipId`; if none, throw "Clip not found";
otherwise patch that row's `result` and `status` by its `_id`. -/
def updateSunoClipStatus (db : DB) (clipId : String)
    (body : SunoGeneratedClip) : Except String DB :=
  match db.suno_clips.find? (fun clip => clip.suno_clip_id == clipId) with
  | none => Except.error "Clip not found"
  | some clip =>
      Except.ok
        { db with
          suno_clips := db.suno_clips.map
            (fun c =>
              if c.dbId == clip.dbId then
                { c with result := some body, status := body.status }
              else c) }

/-- The predicate of the `tasks.some(...)` check in `schedulePollSunoClips`
(functions.ts lines 106-109): a registry entry for `pollSunoClips` with no
completion time yet. -/
def isOutstandingPoll (task : ScheduledTask) : Bool :=
  task.name == pollTaskName && task.completedTime.isNone

/-- `schedulePollSunoClips` (functions.ts lines 103-116): collect the
scheduled-task registry; if no task named `functions.js:pollSunoClips` is
outstanding (completion time absent), enqueue one run of `pollSunoClips`. -/
def schedulePollSunoClips (tasks : List ScheduledTask) : List ScheduledTask :=
  let isPollScheduled := tasks.any isOutstandingPoll
  if !isPollScheduled then tasks ++ [⟨pollTaskName, none⟩] else tasks

/-- Number of outstanding (not yet completed) `pollSunoClips` entries in the
registry. -/
def outstandingPollCount (tasks : List ScheduledTask) : Nat :=
  (tasks.filter isOutstandingPoll).length

/-- The `for (const clip of clipData.clips)` loop of `pollSunoClips`
(functions.ts lines 140-145).  Each `runMutation` commits on its own; a
mutation that throws aborts the loop, keeping the commits made so far.  The
boolean is `true` when every report was applied and `false` when the action
aborted mid-batch. -/
def applyClipUpdates (db : DB) (clips : List SunoGeneratedClip) : DB × Bool :=
  match clips with
  | [] => (db, true)
  | clip :: rest =>
      match updateSunoClipStatus db clip.id clip with
      | Except.error _ => (db, false)
      | Except.ok db2 => applyClipUpdates db2 rest

/-- Observable outcome of one `pollSunoClips` cycle: the committed store, the
task registry, whether the feed endpoint was called, whether the cycle
re-armed the loop (`scheduler.runAfter(10000, pollSunoClips)` reached), and
whether the action aborted with a thrown error. -/
structure PollOutcome where
  db : DB
  tasks : List ScheduledTask
  calledFeed : Bool
  rearmed : Bool
  aborted : Bool
deriving DecidableEq, Repr

/-- `pollSunoClips` (functions.ts lines 118-149).  `feedResponse` is the
parsed feed response: `none` models a response whose `clips` field is absent
(the `!clipData.clips` check; a present-but-empty array is `some []`).  An
empty cohort returns before the fetch.  A missing clip collection throws
"Suno API error" before any update and before the re-arm line.  A clip-update
mutation that throws aborts the action before the re-arm line, keeping earlier
commits.  Only a fully applied batch reaches the re-arm. -/
def pollSunoClips (db : DB) (tasks : List ScheduledTask)
    (feedResponse : Option (List SunoGeneratedClip)) : PollOutcome :=
  let clipsToUpdate := getSunoClipIdsToPoll db
  if clipsToUpdate.length == 0 then
    ⟨db, tasks, false, false, false⟩
  else
    match feedResponse with
    | none => ⟨db, tasks, true, false, true⟩
    | some clips =>
        match applyClipUpdates db clips with
        | (db2, false) => ⟨db2, tasks, true, false, true⟩
        | (db2, true) => ⟨db2, tasks ++ [⟨pollTaskName, none⟩], true, true, false⟩

/-- The empty store a fresh deployment starts from. -/
def initialDB : DB := ⟨[], [], 0⟩

/-- Store states reachable by the core's own operations: submissions
(`saveSunoClipsToDb`, with arbitrary provider-returned ids) and
reconciliations (`updateSunoClipStatus`, which leaves the store unchanged
when it throws). -/
inductive Reachable : DB → Prop where
  | init : Reachable initialDB
  | submit {db : DB} (args : SunoGenerateAudioPayload) (promptId : String)
      (clips : List String) (h : Reachable db) :
      Reachable (saveSunoClipsToDb db [] args promptId clips).1
  | reconcile {db db2 : DB} (clipId : String) (body : SunoGeneratedClip)
      (h : Reachable db) (hok : updateSunoClipStatus db clipId body = Except.ok db2) :
      Reachable db2

/-- Store states reachable when every submission's provider-returned clip ids
are pairwise distinct and fresh (absent from the store).  Same transitions as
`Reachable` otherwise. -/
inductive ReachableFresh : DB → Prop where
  | init : ReachableFresh initialDB
  | submit {db : DB} (args : SunoGenerateAudioPayload) (promptId : String)
      (clips : List String) (h : ReachableFresh db) (hnd : clips.Nodup)
      (hfresh : ∀ cid ∈ clips, cid ∉ db.suno_clips.map ClipRow.suno_clip_id) :
      ReachableFresh (saveSunoClipsToDb db [] args promptId clips).1
  | reconcile {db db2 : DB} (clipId : String) (body : SunoGeneratedClip)
      (h : ReachableFresh db)
      (hok : updateSunoClipStatus db clipId body = Except.ok db2) :
      ReachableFresh db2

/-- Clip rows produced by the insertion loop of `saveSunoClipsToDb`, starting
at fresh id `start`, all owned by prompt `promptDbId`. -/
def mkNewClips (start promptDbId : Nat) : List String → List ClipRow
  | [] => []
  | cid :: rest =>
      ⟨start, promptDbId, cid, SunoStatus.submitted, none⟩ ::
        mkNewClips (start + 1) promptDbId rest

/-- A provider clip report with the given id and status and default values in
the remaining fields; used to build concrete batches. -/
def mkClip (id : String) (status : SunoStatus) : SunoGeneratedClip :=
  { id := id, video_url := none, audio_url := none, image_large_url := none,
    image_url := none, is_video_pending := false, major_model_version := "v3",
    model_name := "chirp-v3-5", metadata := "", status := status, title := "",
    play_count := 0, upvote_count := 0, is_public := false, is_liked := false,
    is_trashed := false, created_at := "", user_id := "", display_name := "",
    handle := "", is_handle_updated := false, avatar_image_url := "" }

/-- A concrete request payload. -/
def exPayload : SunoGenerateAudioPayload :=
  { gpt_description_prompt := none, tags := none, prompt := "lofi beats",
    mv := "chirp-v3-5" }

/-- A concrete store: prompt p1 with one clip c1 still in `submitted` status. -/
def exDBpending : DB :=
  { suno_prompts := [⟨0, "p1", exPayload⟩],
    suno_clips := [⟨1, 0, "c1", SunoStatus.submitted, none⟩],
    nextId := 2 }

/-- A concrete store: prompt p1 with clip c1 already in terminal `complete`
status and clip c2 still pending. -/
def exDBterminal : DB :=
  { suno_prompts := [⟨0, "p1", exPayload⟩],
    suno_clips := [⟨1, 0, "c1", SunoStatus.complete, some (mkClip "c1" SunoStatus.complete)⟩,
                   ⟨2, 0, "c2", SunoStatus.streaming, none⟩],
    nextId := 3 }

lemma insertClips_spec (clips : List String) (db : DB) (promptDbId : Nat) :
    insertClips db promptDbId clips =
      { suno_prompts := db.suno_prompts,
        suno_clips := db.suno_clips ++ mkNewClips db.nextId promptDbId clips,
        nextId := db.nextId + clips.length } := by
  induction clips generalizing db with
  | nil => simp [insertClips, mkNewClips]
  | cons cid rest ih =>
      simp only [insertClips, List.foldl_cons] at *
      rw [ih]
      simp [mkNewClips, Nat.add_assoc, Nat.add_comm 1 rest.length]

lemma mkNewClips_fields (start promptDbId : Nat) (clips : List String) :
    (mkNewClips start promptDbId clips).map
        (fun c => (c.suno_clip_id, c.status, c.suno_prompt, c.result)) =
      clips.map (fun cid =>
        (cid, SunoStatus.submitted, promptDbId, (none : Option SunoGeneratedClip))) := by
  induction clips generalizing start with
  | nil => simp [mkNewClips]
  | cons cid rest ih => simp [mkNewClips, ih]

lemma mkNewClips_length (start promptDbId : Nat) (clips : List String) :
    (mkNewClips start promptDbId clips).length = clips.length := by
  induction clips generalizing start with
  | nil => simp [mkNewClips]
  | cons cid rest ih => simp [mkNewClips, ih]

lemma mkNewClips_map_clipId (start promptDbId : Nat) (clips : List String) :
    (mkNewClips start promptDbId clips).map ClipRow.suno_clip_id = clips := by
  induction clips generalizing start with
  | nil => simp [mkNewClips]
  | cons cid rest ih => simp [mkNewClips, ih]

lemma updateSunoClipStatus_ok_shape {db db2 : DB} {clipId : String}
    {body : SunoGeneratedClip}
    (h : updateSunoClipStatus db clipId body = Except.ok db2) :
    ∃ tgt, db.suno_clips.find? (fun c => c.suno_clip_id == clipId) = some tgt ∧
      db2 = { db with
        suno_clips := db.suno_clips.map
          (fun c =>
            if c.dbId == tgt.dbId then
              { c with result := some body, status := body.status }
            else c) } := by
  unfold updateSunoClipStatus at h
  cases hfind : db.suno_clips.find? (fun c => c.suno_clip_id == clipId) with
  | none => rw [hfind] at h; exact absurd h (by simp)
  | some tgt =>
      rw [hfind] at h
      exact ⟨tgt, rfl, (Except.ok.injEq _ _ ▸ h).symm⟩

lemma updateSunoClipStatus_ok_prompts {db db2 : DB} {clipId : String}
    {body : SunoGeneratedClip}
    (h : updateSunoClipStatus db clipId body = Except.ok db2) :
    db2.suno_prompts = db.suno_prompts := by
  obtain ⟨tgt, _, rfl⟩ := updateSunoClipStatus_ok_shape h
  rfl

lemma updateSunoClipStatus_ok_map_dbId {db db2 : DB} {clipId : String}
    {body : SunoGeneratedClip}
    (h : updateSunoClipStatus db clipId body = Except.ok db2) :
    db2.suno_clips.map ClipRow.dbId = db.suno_clips.map ClipRow.dbId := by
  obtain ⟨tgt, _, rfl⟩ := updateSunoClipStatus_ok_shape h
  simp only [List.map_map]
  refine List.map_congr_left (fun c _ => ?_)
  simp only [Function.comp_apply]
  by_cases hc : c.dbId == tgt.dbId
  · rw [if_pos hc]
  · rw [if_neg hc]

lemma updateSunoClipStatus_ok_map_clipId {db db2 : DB} {clipId : String}
    {body : SunoGeneratedClip}
    (h : updateSunoClipStatus db clipId body = Except.ok db2) :
    db2.suno_clips.map ClipRow.suno_clip_id =
      db.suno_clips.map ClipRow.suno_clip_id := by
  obtain ⟨tgt, _, rfl⟩ := updateSunoClipStatus_ok_shape h
  simp only [List.map_map]
  refine List.map_congr_left (fun c _ => ?_)
  simp only [Function.comp_apply]
  by_cases hc : c.dbId == tgt.dbId
  · rw [if_pos hc]
  · rw [if_neg hc]

lemma updateSunoClipStatus_ok_fields {db db2 : DB} {clipId : String}
    {body : SunoGeneratedClip}
    (h : updateSunoClipStatus db clipId body = Except.ok db2) :
    List.Forall₂
      (fun c c' => c'.dbId = c.dbId ∧ c'.suno_prompt = c.suno_prompt ∧
        c'.suno_clip_id = c.suno_clip_id)
      db.suno_clips db2.suno_clips := by
  obtain ⟨tgt, _, rfl⟩ := updateSunoClipStatus_ok_shape h
  rw [List.forall₂_map_right_iff, List.forall₂_same]
  intro c _
  by_cases hc : c.dbId == tgt.dbId
  · rw [if_pos hc]; exact ⟨rfl, rfl, rfl⟩
  · rw [if_neg hc]; exact ⟨rfl, rfl, rfl⟩

lemma updateSunoClipStatus_ok_frame {db db2 : DB} {clipId : String}
    {body : SunoGeneratedClip}
    (hnd : (db.suno_clips.map ClipRow.dbId).Nodup)
    (h : updateSunoClipStatus db clipId body = Except.ok db2) :
    List.Forall₂
      (fun c c' => c'.dbId = c.dbId ∧ c'.suno_prompt = c.suno_prompt ∧
        c'.suno_clip_id = c.suno_clip_id ∧ (c.suno_clip_id ≠ clipId → c' = c))
      db.suno_clips db2.suno_clips := by
  obtain ⟨tgt, hfind, rfl⟩ := updateSunoClipStatus_ok_shape h
  have htgt_mem : tgt ∈ db.suno_clips := List.mem_of_find?_eq_some hfind
  have htgt_id : tgt.suno_clip_id = clipId := by
    have := List.find?_some hfind
    simpa using this
  rw [List.forall₂_map_right_iff, List.forall₂_same]
  intro c hc
  by_cases hdb : c.dbId == tgt.dbId
  · have hceq : c = tgt :=
      List.inj_on_of_nodup_map hnd hc htgt_mem (by simpa using hdb)
    rw [if_pos hdb]
    exact ⟨rfl, rfl, rfl, fun hne => absurd (hceq ▸ htgt_id) hne⟩
  · rw [if_neg hdb]
    exact ⟨rfl, rfl, rfl, fun _ => rfl⟩

/-- Composition of two pointwise list relations. -/
lemma forall₂_comp_trans {α : Type} {R S T : α → α → Prop}
    (h : ∀ a b c, R a b → S b c → T a c) :
    ∀ {l1 l2 l3 : List α}, List.Forall₂ R l1 l2 → List.Forall₂ S l2 l3 →
      List.Forall₂ T l1 l3 := by
  intro l1 l2 l3 h12
  induction h12 generalizing l3 with
  | nil =>
      intro h23
      cases h23
      exact List.Forall₂.nil
  | cons hab htail ih =>
      intro h23
      cases h23 with
      | cons hbc htail2 => exact List.Forall₂.cons (h _ _ _ hab hbc) (ih htail2)

/-- Pointwise relation between a clip row before and after a batch of
reconciler updates for the reports with external ids `ids`: the row keeps its
`_id`, owning prompt and external id, and is completely unchanged unless some
report named its external id. -/
def ClipFrameRel (ids : List String) (c c2 : ClipRow) : Prop :=
  c2.dbId = c.dbId ∧ c2.suno_prompt = c.suno_prompt ∧
    c2.suno_clip_id = c.suno_clip_id ∧ (c.suno_clip_id ∉ ids → c2 = c)

lemma applyClipUpdates_map_dbId (reports : List SunoGeneratedClip) (db : DB) :
    (applyClipUpdates db reports).1.suno_clips.map ClipRow.dbId =
      db.suno_clips.map ClipRow.dbId := by
  induction reports generalizing db with
  | nil => rfl
  | cons r rest ih =>
      unfold applyClipUpdates
      cases hupd : updateSunoClipStatus db r.id r with
      | error e => rfl
      | ok db1 => rw [ih db1, updateSunoClipStatus_ok_map_dbId hupd]

lemma applyClipUpdates_map_clipId (reports : List SunoGeneratedClip) (db : DB) :
    (applyClipUpdates db reports).1.suno_clips.map ClipRow.suno_clip_id =
      db.suno_clips.map ClipRow.suno_clip_id := by
  induction reports generalizing db with
  | nil => rfl
  | cons r rest ih =>
      unfold applyClipUpdates
      cases hupd : updateSunoClipStatus db r.id r with
      | error e => rfl
      | ok db1 => rw [ih db1, updateSunoClipStatus_ok_map_clipId hupd]

lemma applyClipUpdates_prompts (reports : List SunoGeneratedClip) (db : DB) :
    (applyClipUpdates db reports).1.suno_prompts = db.suno_prompts := by
  induction reports generalizing db with
  | nil => rfl
  | cons r rest ih =>
      unfold applyClipUpdates
      cases hupd : updateSunoClipStatus db r.id r with
      | error e => rfl
      | ok db1 => rw [ih db1, updateSunoClipStatus_ok_prompts hupd]

lemma applyClipUpdates_frame (reports : List SunoGeneratedClip) (db : DB)
    (hnd : (db.suno_clips.map ClipRow.dbId).Nodup) :
    List.Forall₂ (ClipFrameRel (reports.map SunoGeneratedClip.id))
      db.suno_clips (applyClipUpdates db reports).1.suno_clips := by
  induction reports generalizing db with
  | nil =>
      exact List.forall₂_same.2 (fun c _ => ⟨rfl, rfl, rfl, fun _ => rfl⟩)
  | cons r rest ih =>
      unfold applyClipUpdates
      cases hupd : updateSunoClipStatus db r.id r with
      | error e =>
          exact List.forall₂_same.2 (fun c _ => ⟨rfl, rfl, rfl, fun _ => rfl⟩)
      | ok db1 =>
          have hstep := updateSunoClipStatus_ok_frame hnd hupd
          have hnd1 : (db1.suno_clips.map ClipRow.dbId).Nodup := by
            rw [updateSunoClipStatus_ok_map_dbId hupd]; exact hnd
          have hrest := ih db1 hnd1
          refine forall₂_comp_trans (fun a b c hab hbc => ?_) hstep hrest
          obtain ⟨hd1, hp1, hi1, hu1⟩ := hab
          obtain ⟨hd2, hp2, hi2, hu2⟩ := hbc
          refine ⟨hd2.trans hd1, hp2.trans hp1, hi2.trans hi1, fun hnotin => ?_⟩
          simp only [List.map_cons, List.mem_cons, not_or] at hnotin
          have hba : b = a := hu1 hnotin.1
          have hcb : c = b := hu2 (by rw [hba]; exact hnotin.2)
          rw [hcb, hba]
/-- C1: invoking `schedulePollSunoClips` while a not-yet-completed poll task
is outstanding enqueues nothing (the registry is left exactly as it was, so
no second outstanding poll task appears and at-most-one outstanding poll task
is preserved); when none is outstanding it enqueues exactly one. -/
theorem schedulePollSunoClips_idempotent_arm (tasks : List ScheduledTask) :
    (tasks.any isOutstandingPoll = true → schedulePollSunoClips tasks = tasks) ∧
    (tasks.any isOutstandingPoll = false →
      schedulePollSunoClips tasks = tasks ++ [⟨pollTaskName, none⟩] ∧
      outstandingPollCount (schedulePollSunoClips tasks) = 1) ∧
    (outstandingPollCount tasks ≤ 1 →
      outstandingPollCount (schedulePollSunoClips tasks) ≤ 1) := by
  have harm : tasks.any isOutstandingPoll = false →
      schedulePollSunoClips tasks = tasks ++ [⟨pollTaskName, none⟩] ∧
      outstandingPollCount (schedulePollSunoClips tasks) = 1 := by
    intro h
    have hsched : schedulePollSunoClips tasks = tasks ++ [⟨pollTaskName, none⟩] := by
      simp [schedulePollSunoClips, h]
    refine ⟨hsched, ?_⟩
    have hnil : tasks.filter isOutstandingPoll = [] := by
      rw [List.filter_eq_nil_iff]
      intro a ha
      simpa using List.any_eq_false.mp h a ha
    rw [hsched, outstandingPollCount, List.filter_append, hnil]
    simp [isOutstandingPoll, pollTaskName]
  have hnoop : tasks.any isOutstandingPoll = true →
      schedulePollSunoClips tasks = tasks := by
    intro h
    simp [schedulePollSunoClips, h]
  refine ⟨hnoop, harm, fun hle => ?_⟩
  cases hany : tasks.any isOutstandingPoll with
  | false => exact (harm hany).2.le
  | true => rw [hnoop hany]; exact hle

/-- C1 witness: with one outstanding poll task in the registry, arming is a
no-op. -/
theorem schedulePollSunoClips_idempotent_arm_witness :
    schedulePollSunoClips [⟨pollTaskName, none⟩] = [⟨pollTaskName, none⟩] :=
  (schedulePollSunoClips_idempotent_arm [⟨pollTaskName, none⟩]).1 (by decide)

/-- C4: a successful submission whose provider response carries a prompt id
and N clip objects adds exactly one new Prompt row (holding the response's
prompt id and the request payload) and exactly N new Clip rows, all in
`submitted` status with no result, each referencing the new Prompt row's id,
leaving all pre-existing rows in place; being a single mutation, the whole
write is one atomic state transition. -/
theorem generateSunoAudio_creates_prompt_and_clips (db : DB)
    (tasks : List ScheduledTask) (args : SunoGenerateAudioPayload)
    (json : SunoGenerateAudioResponse) :
    (generateSunoAudio db tasks args json).1.suno_prompts =
      db.suno_prompts ++ [⟨db.nextId, json.id, args⟩] ∧
    (generateSunoAudio db tasks args json).1.suno_clips.take
        db.suno_clips.length = db.suno_clips ∧
    (generateSunoAudio db tasks args json).1.suno_clips.length =
      db.suno_clips.length + json.clips.length ∧
    ((generateSunoAudio db tasks args json).1.suno_clips.drop
        db.suno_clips.length).map
        (fun c => (c.suno_clip_id, c.status, c.suno_prompt, c.result)) =
      json.clips.map (fun clip =>
        (clip.id, SunoStatus.submitted, db.nextId,
          (none : Option SunoGeneratedClip))) := by
  have hshape : (generateSunoAudio db tasks args json).1 =
      { suno_prompts := db.suno_prompts ++ [⟨db.nextId, json.id, args⟩],
        suno_clips := db.suno_clips ++
          mkNewClips (db.nextId + 1) db.nextId
            (json.clips.map (fun clip => clip.id)),
        nextId := db.nextId + 1 + (json.clips.map (fun clip => clip.id)).length } := by
    have hred : (generateSunoAudio db tasks args json).1 =
        insertClips
          { db with
            suno_prompts := db.suno_prompts ++ [⟨db.nextId, json.id, args⟩],
            nextId := db.nextId + 1 }
          db.nextId (json.clips.map (fun clip => clip.id)) := rfl
    rw [hred, insertClips_spec]
  rw [hshape]
  refine ⟨rfl, List.take_left _ _, ?_, ?_⟩
  · simp [mkNewClips_length]
  · rw [List.drop_left, mkNewClips_fields, List.map_map]
    rfl

/-- C5: the pending cohort has at most 10 entries, and every entry is the
external id of some stored clip whose status is neither `complete` nor
`error`. -/
theorem getSunoClipIdsToPoll_cohort_bounded_pending (db : DB) :
    (getSunoClipIdsToPoll db).length ≤ 10 ∧
    ∀ cid ∈ getSunoClipIdsToPoll db,
      ∃ c ∈ db.suno_clips, c.suno_clip_id = cid ∧
        c.status ≠ SunoStatus.complete ∧ c.status ≠ SunoStatus.error := by
  constructor
  · show (List.map _ (List.take 10 _)).length ≤ 10
    rw [List.length_map, List.length_take]
    exact min_le_left _ _
  · intro cid hcid
    simp only [getSunoClipIdsToPoll, List.mem_map] at hcid
    obtain ⟨c, hc, rfl⟩ := hcid
    have hc2 := List.take_subset 10 _ hc
    rw [List.mem_filter] at hc2
    have hp := hc2.2
    simp only [Bool.and_eq_true, Bool.not_eq_true', beq_eq_false_iff_ne] at hp
    exact ⟨c, hc2.1, rfl, hp.1, hp.2⟩

/-- C5 witness: the single pending clip of a concrete store is reported by a
pending row. -/
theorem getSunoClipIdsToPoll_cohort_bounded_pending_witness :
    ∃ c ∈ exDBpending.suno_clips, c.suno_clip_id = "c1" ∧
      c.status ≠ SunoStatus.complete ∧ c.status ≠ SunoStatus.error :=
  (getSunoClipIdsToPoll_cohort_bounded_pending exDBpending).2 "c1" (by decide)

/-- C6: a poll cycle that observes an empty pending cohort makes no feed
call, applies no update, does not re-arm the loop, and does not abort. -/
theorem pollSunoClips_empty_cohort_no_call_no_rearm (db : DB)
    (tasks : List ScheduledTask)
    (feedResponse : Option (List SunoGeneratedClip))
    (h : getSunoClipIdsToPoll db = []) :
    pollSunoClips db tasks feedResponse = ⟨db, tasks, false, false, false⟩ := by
  unfold pollSunoClips
  rw [h]
  rfl

/-- C6 witness: on the empty store the poll cycle is a no-op. -/
theorem pollSunoClips_empty_cohort_no_call_no_rearm_witness :
    pollSunoClips initialDB [] none = ⟨initialDB, [], false, false, false⟩ :=
  pollSunoClips_empty_cohort_no_call_no_rearm initialDB [] none (by decide)

/-- C7: over a poll cycle (with well-formed distinct row `_id`s, as the
persistence layer guarantees), every stored clip keeps its `_id`, owning
prompt and external id, and a clip row changes at all only if some report in
the feed response named its external id; clips absent from the response are
untouched. -/
theorem pollSunoClips_frame_only_named_clips (db : DB)
    (tasks : List ScheduledTask) (reports : List SunoGeneratedClip)
    (hnd : (db.suno_clips.map ClipRow.dbId).Nodup) :
    List.Forall₂
      (fun c c2 => c2.dbId = c.dbId ∧ c2.suno_prompt = c.suno_prompt ∧
        c2.suno_clip_id = c.suno_clip_id ∧
        (c.suno_clip_id ∉ reports.map SunoGeneratedClip.id → c2 = c))
      db.suno_clips (pollSunoClips db tasks (some reports)).db.suno_clips := by
  have hframe := applyClipUpdates_frame reports db hnd
  have hdb : (pollSunoClips db tasks (some reports)).db = db ∨
      (pollSunoClips db tasks (some reports)).db = (applyClipUpdates db reports).1 := by
    simp only [pollSunoClips]
    by_cases hlen : ((getSunoClipIdsToPoll db).length == 0) = true
    · rw [if_pos hlen]
      exact Or.inl rfl
    · rw [if_neg hlen]
      cases happly : applyClipUpdates db reports with
      | mk db2 ok =>
          cases ok
          · exact Or.inr rfl
          · exact Or.inr rfl
  cases hdb with
  | inl h =>
      rw [h]
      exact List.forall₂_same.2 (fun c _ => ⟨rfl, rfl, rfl, fun _ => rfl⟩)
  | inr h =>
      rw [h]
      exact hframe

/-- C7 witness: a cycle whose feed response names only c2 leaves the terminal
clip c1 untouched. -/
theorem pollSunoClips_frame_only_named_clips_witness :
    List.Forall₂
      (fun c c2 => c2.dbId = c.dbId ∧ c2.suno_prompt = c.suno_prompt ∧
        c2.suno_clip_id = c.suno_clip_id ∧
        (c.suno_clip_id ∉
            [mkClip "c2" SunoStatus.complete].map SunoGeneratedClip.id → c2 = c))
      exDBterminal.suno_clips
      (pollSunoClips exDBterminal []
        (some [mkClip "c2" SunoStatus.complete])).db.suno_clips :=
  pollSunoClips_frame_only_named_clips exDBterminal []
    [mkClip "c2" SunoStatus.complete] (by decide)

/-- C8: whenever a report's external id matches a stored clip (the first
matching row, regardless of its current status — including the terminal
statuses `complete` and `error`), the reconciler succeeds and overwrites that
row's status and result with the report's values. -/
theorem updateSunoClipStatus_accepts_terminal_overwrite (db : DB)
    (clipId : String) (body : SunoGeneratedClip) (tgt : ClipRow)
    (hfind : db.suno_clips.find? (fun c => c.suno_clip_id == clipId) = some tgt) :
    ∃ db2, updateSunoClipStatus db clipId body = Except.ok db2 ∧
      ∃ c2 ∈ db2.suno_clips, c2.dbId = tgt.dbId ∧
        c2.suno_clip_id = tgt.suno_clip_id ∧
        c2.status = body.status ∧ c2.result = some body := by
  refine ⟨{ db with
      suno_clips := db.suno_clips.map
        (fun c =>
          if c.dbId == tgt.dbId then
            { c with result := some body, status := body.status }
          else c) }, ?_, ?_⟩
  · unfold updateSunoClipStatus
    rw [hfind]
  · have htgt_mem : tgt ∈ db.suno_clips := List.mem_of_find?_eq_some hfind
    refine ⟨{ tgt with result := some body, status := body.status }, ?_, rfl, rfl, rfl, rfl⟩
    have : { tgt with result := some body, status := body.status } =
        (fun c : ClipRow =>
          if c.dbId == tgt.dbId then
            { c with result := some body, status := body.status }
          else c) tgt := by
      simp
    rw [this]
    exact List.mem_map_of_mem _ htgt_mem

/-- C8 witness: the clip c1 already in terminal `complete` status is
overwritten backward to `queued` by a late report. -/
theorem updateSunoClipStatus_accepts_terminal_overwrite_witness :
    ∃ db2, updateSunoClipStatus exDBterminal "c1" (mkClip "c1" SunoStatus.queued) =
        Except.ok db2 ∧
      ∃ c2 ∈ db2.suno_clips, c2.dbId = 1 ∧ c2.suno_clip_id = "c1" ∧
        c2.status = SunoStatus.queued ∧
        c2.result = some (mkClip "c1" SunoStatus.queued) :=
  updateSunoClipStatus_accepts_terminal_overwrite exDBterminal "c1"
    (mkClip "c1" SunoStatus.queued)
    ⟨1, 0, "c1", SunoStatus.complete, some (mkClip "c1" SunoStatus.complete)⟩
    (by decide)

/-- C10: a successful reconciler update modifies only status and result:
every clip row (the patched one included) keeps its external clip id, its
owning prompt reference and its `_id`, and the prompt table is untouched. -/
theorem updateSunoClipStatus_only_status_result (db db2 : DB) (clipId : String)
    (body : SunoGeneratedClip)
    (h : updateSunoClipStatus db clipId body = Except.ok db2) :
    List.Forall₂
      (fun c c2 => c2.suno_clip_id = c.suno_clip_id ∧
        c2.suno_prompt = c.suno_prompt ∧ c2.dbId = c.dbId)
      db.suno_clips db2.suno_clips ∧ db2.suno_prompts = db.suno_prompts := by
  refine ⟨?_, updateSunoClipStatus_ok_prompts h⟩
  refine List.Forall₂.imp ?_ (updateSunoClipStatus_ok_fields h)
  intro a b hc
  exact ⟨hc.2.2, hc.2.1, hc.1⟩

/-- C10 witness: a concrete update of c1 preserves its id fields. -/
theorem updateSunoClipStatus_only_status_result_witness :
    List.Forall₂
      (fun c c2 => c2.suno_clip_id = c.suno_clip_id ∧
        c2.suno_prompt = c.suno_prompt ∧ c2.dbId = c.dbId)
      exDBpending.suno_clips
      ({ suno_prompts := [⟨0, "p1", exPayload⟩],
         suno_clips := [⟨1, 0, "c1", SunoStatus.queued,
           some (mkClip "c1" SunoStatus.queued)⟩],
         nextId := 2 } : DB).suno_clips ∧
    ({ suno_prompts := [⟨0, "p1", exPayload⟩],
       suno_clips := [⟨1, 0, "c1", SunoStatus.queued,
         some (mkClip "c1" SunoStatus.queued)⟩],
       nextId := 2 } : DB).suno_prompts = exDBpending.suno_prompts :=
  updateSunoClipStatus_only_status_result exDBpending _ "c1"
    (mkClip "c1" SunoStatus.queued) rfl

/-- A store obtained by submitting a provider response that repeats the same
clip id twice. -/
def dupDB : DB := (saveSunoClipsToDb initialDB [] exPayload "p1" ["c1", "c1"]).1

/-- A store obtained by submitting a provider response with two distinct
fresh clip ids. -/
def freshDB : DB := (saveSunoClipsToDb initialDB [] exPayload "p1" ["c1", "c2"]).1

lemma applyClipUpdates_cons_error (db : DB) (r : SunoGeneratedClip)
    (tail : List SunoGeneratedClip) (e : String)
    (h : updateSunoClipStatus db r.id r = Except.error e) :
    applyClipUpdates db (r :: tail) = (db, false) := by
  unfold applyClipUpdates
  rw [h]

lemma applyClipUpdates_cons_ok (db dbm : DB) (r : SunoGeneratedClip)
    (tail : List SunoGeneratedClip)
    (h : updateSunoClipStatus db r.id r = Except.ok dbm) :
    applyClipUpdates db (r :: tail) = applyClipUpdates dbm tail := by
  conv_lhs => rw [applyClipUpdates]
  rw [h]

lemma applyClipUpdates_append (pre suffix : List SunoGeneratedClip)
    (db db1 : DB) (h : applyClipUpdates db pre = (db1, true)) :
    applyClipUpdates db (pre ++ suffix) = applyClipUpdates db1 suffix := by
  induction pre generalizing db with
  | nil =>
      have hpair : (db, true) = (db1, true) := h
      cases hpair
      rw [List.nil_append]
  | cons r rest ih =>
      rw [List.cons_append]
      cases hupd : updateSunoClipStatus db r.id r with
      | error e =>
          rw [applyClipUpdates_cons_error db r rest e hupd] at h
          exact absurd h (by simp)
      | ok dbm =>
          rw [applyClipUpdates_cons_ok db dbm r rest hupd] at h
          rw [applyClipUpdates_cons_ok db dbm r (rest ++ suffix) hupd]
          exact ih dbm h

/-- C2 counterexample: a concrete poll cycle with a non-empty pending cohort
whose feed response lacks the clips collection does apply zero updates, but
the loop is NOT re-armed for the next cycle (no poll task is scheduled and
the cycle ends in the thrown "Suno API error"), contrary to the claim. -/
theorem pollSunoClips_missing_clips_not_rearmed_cex :
    getSunoClipIdsToPoll exDBpending ≠ [] ∧
    (pollSunoClips exDBpending [] none).calledFeed = true ∧
    (pollSunoClips exDBpending [] none).db = exDBpending ∧
    (pollSunoClips exDBpending [] none).rearmed = false ∧
    (pollSunoClips exDBpending [] none).tasks = [] ∧
    (pollSunoClips exDBpending [] none).aborted = true := by
  decide

/-- C2 amended: a poll cycle with a non-empty pending cohort whose feed
response lacks the expected clips collection applies zero status/result
updates (the store and registry are unchanged) and aborts with the thrown
error BEFORE the re-arm line, so the loop is not re-armed by that cycle. -/
theorem pollSunoClips_missing_clips_aborts (db : DB)
    (tasks : List ScheduledTask) (h : getSunoClipIdsToPoll db ≠ []) :
    pollSunoClips db tasks none = ⟨db, tasks, true, false, true⟩ := by
  have hlen : (getSunoClipIdsToPoll db).length ≠ 0 := by
    simpa [List.length_eq_zero] using h
  simp only [pollSunoClips]
  rw [if_neg (by simpa using hlen)]

/-- C2 amended witness: the concrete malformed-response cycle. -/
theorem pollSunoClips_missing_clips_aborts_witness :
    pollSunoClips exDBpending [] none = ⟨exDBpending, [], true, false, true⟩ :=
  pollSunoClips_missing_clips_aborts exDBpending [] (by decide)

/-- C3 counterexample: in a concrete batch whose first report carries an
unknown external id and whose second report names the stored pending clip c1,
the cycle aborts at the first report and c1 is left in `submitted` with no
result — the remaining report of the batch is NOT applied, contrary to the
claim that an unknown id is skipped and the rest of the batch still applied. -/
theorem applyClipUpdates_unknown_id_skip_cex :
    applyClipUpdates exDBpending
        [mkClip "cX" SunoStatus.complete, mkClip "c1" SunoStatus.complete] =
      (exDBpending, false) ∧
    (pollSunoClips exDBpending []
        (some [mkClip "cX" SunoStatus.complete,
               mkClip "c1" SunoStatus.complete])).db = exDBpending ∧
    (pollSunoClips exDBpending []
        (some [mkClip "cX" SunoStatus.complete,
               mkClip "c1" SunoStatus.complete])).aborted = true := by
  decide

/-- C3 amended: a report whose external id matches no stored clip makes
`updateSunoClipStatus` throw "Clip not found" and the poll action abort at
that report: the reports before it in the batch stay applied (their commits
are kept), while the unknown report and every report after it are not
applied. -/
theorem applyClipUpdates_unknown_id_aborts_batch (db db1 : DB)
    (pre : List SunoGeneratedClip) (r : SunoGeneratedClip)
    (rest : List SunoGeneratedClip)
    (hpre : applyClipUpdates db pre = (db1, true))
    (hmiss : db1.suno_clips.find? (fun c => c.suno_clip_id == r.id) = none) :
    applyClipUpdates db (pre ++ r :: rest) = (db1, false) := by
  rw [applyClipUpdates_append pre (r :: rest) db db1 hpre]
  unfold applyClipUpdates updateSunoClipStatus
  rw [hmiss]

/-- C3 amended witness: the report for c1 before the unknown report is
applied and kept; the unknown report and the one after it are dropped. -/
theorem applyClipUpdates_unknown_id_aborts_batch_witness :
    applyClipUpdates exDBpending
        ([mkClip "c1" SunoStatus.queued] ++
          mkClip "cX" SunoStatus.complete :: [mkClip "c1" SunoStatus.complete]) =
      ({ suno_prompts := [⟨0, "p1", exPayload⟩],
         suno_clips := [⟨1, 0, "c1", SunoStatus.queued,
           some (mkClip "c1" SunoStatus.queued)⟩],
         nextId := 2 }, false) :=
  applyClipUpdates_unknown_id_aborts_batch exDBpending _
    [mkClip "c1" SunoStatus.queued] (mkClip "cX" SunoStatus.complete)
    [mkClip "c1" SunoStatus.complete] (by decide) (by decide)

/-- C9 counterexample: a single submission whose provider response repeats
the clip id c1 yields a reachable store holding two clip rows with the same
external clip id — nothing in the code enforces uniqueness against the
provider's ids. -/
theorem reachable_duplicate_clip_ids_cex :
    Reachable dupDB ∧
      ¬ (dupDB.suno_clips.map ClipRow.suno_clip_id).Nodup :=
  ⟨Reachable.submit exPayload "p1" ["c1", "c1"] Reachable.init, by decide⟩

/-- C9 amended: external clip ids are unique in every store reachable from
the empty store PROVIDED every submission's provider-returned clip ids are
pairwise distinct and fresh for the store; reconciliations never disturb the
invariant. -/
theorem reachableFresh_unique_clip_ids (db : DB) (h : ReachableFresh db) :
    (db.suno_clips.map ClipRow.suno_clip_id).Nodup := by
  induction h with
  | init => simp [initialDB]
  | submit args promptId clips hr hnd hfresh ih =>
      rename_i db2
      have hred : (saveSunoClipsToDb db2 [] args promptId clips).1 =
          insertClips
            { db2 with
              suno_prompts := db2.suno_prompts ++ [⟨db2.nextId, promptId, args⟩],
              nextId := db2.nextId + 1 }
            db2.nextId clips := rfl
      rw [hred, insertClips_spec]
      show (List.map ClipRow.suno_clip_id
        (db2.suno_clips ++ mkNewClips (db2.nextId + 1) db2.nextId clips)).Nodup
      rw [List.map_append, mkNewClips_map_clipId, List.nodup_append]
      refine ⟨ih, hnd, ?_⟩
      intro a ha hb
      exact hfresh a hb ha
  | reconcile clipId body hr hok ih =>
      rw [updateSunoClipStatus_ok_map_clipId hok]
      exact ih

/-- C9 amended witness: a fresh-id submission yields distinct external ids. -/
theorem reachableFresh_unique_clip_ids_witness :
    (freshDB.suno_clips.map ClipRow.suno_clip_id).Nodup :=
  reachableFresh_unique_clip_ids freshDB
    (ReachableFresh.submit exPayload "p1" ["c1", "c2"] ReachableFresh.init
      (by decide) (by decide))

end SunoApp
